import Mathlib

set_option maxRecDepth 4096

/-!
Verification of the anime-data-scraper repository against its
natural-language specification.

The development shallowly embeds the Go source:
* the retrying fetcher `fetchData` (api client),
* the paginated fetch loops `GetTopAnime` and `GetAnimeReviews`,
* the tabular projections `ExportAnimeStatistics` and `ExportAnimeReviews`
  (modelled at the level of the row sets they emit; the CSV file writer is
  plain I/O and out of scope),
* the orchestrating workflow `CollectAnimeData`.

Go strings are modelled as Lean strings (`String.data` gives the character
list).  Go's `ReplaceAll` on the single-byte patterns `"\n"`/`"\r"` is a
character map (those bytes occur in UTF-8 only as those characters), but
Go's `len` and slicing act on UTF-8 *bytes*; the truncation step is
therefore modelled on `utf8Bytes`.  Go `int` is modelled as `Int`.
HTTP and JSON decoding are modelled by oracles: a fetch oracle maps an
attempt number (resp. a page number) to the outcome the network produced.
-/

namespace AnimeScraper

/-! ### Configuration constants (config/config.go) -/

def MaxRetries : Nat := 3

def MaxItemsToFetch : Int := 1000

/-! ### Retrying fetcher (api client, `fetchData`)

The Go loop keeps three mutable variables across attempts: `resp`, `err`
and `body`.  One attempt of `c.httpClient.Get` + status check + body read
has five possible outcomes, modelled by `Attempt`; the oracle maps the
attempt number (1-based) to the outcome.  Crucially, the multi-assignment
`resp, err = c.httpClient.Get(url)` resets `err` to nil whenever the
transport call succeeds, and the 429 branch `continue`s without assigning
`err`; the model reproduces this exactly. -/

/-- Underlying cause of a failed attempt, as the Go code records it in `err`. -/
inductive Cause
  | network (msg : String)          -- transport error from httpClient.Get
  | httpStatus (code : Nat)         -- "API returned non-200 status code: %d"
  | readFail (msg : String)         -- io.ReadAll failure
  deriving DecidableEq, Repr

/-- Outcome of one attempt of the fetch loop body. `readErr` carries the
bytes `io.ReadAll` had already read when it failed (Go assigns them to
`body` via `body, err = io.ReadAll(resp.Body)`). -/
inductive Attempt
  | netErr (msg : String)                      -- Get fails
  | rateLimited                                -- Get ok, status 429
  | badStatus (code : Nat)                     -- Get ok, status ≠ 200, ≠ 429
  | readErr (sofar : List Nat) (msg : String)  -- Get ok, 200, ReadAll fails
  | ok (body : List Nat)                       -- Get ok, 200, ReadAll ok
  deriving DecidableEq, Repr

/-- What `fetchData` returns: Go's `([]byte, error)` pair, with the two
cases that actually occur.  `success none` is the Go return `(nil, nil)`
(the `body` variable was never assigned). -/
inductive FetchResult
  | success (body : Option (List Nat))                 -- err == nil on exit
  | exhausted (cause : Cause)                          -- "failed after %d attempts: %w"
  deriving DecidableEq, Repr

/-- The attempt loop of `fetchData`, folding the mutable `body`/`err` state
over the list of attempt outcomes.  After the loop (list exhausted), the Go
code returns `(nil, wrap(err))` when `err != nil` and `(body, nil)`
otherwise. -/
def runAttempts : List Attempt → Option (List Nat) → Option Cause → FetchResult
  | [], body, none => FetchResult.success body
  | [], _, some c => FetchResult.exhausted c
  | a :: rest, body, _err =>
    match a with
    | Attempt.netErr m => runAttempts rest body (some (Cause.network m))
    | Attempt.rateLimited => runAttempts rest body none
    | Attempt.badStatus c => runAttempts rest body (some (Cause.httpStatus c))
    | Attempt.readErr sofar m => runAttempts rest (some sofar) (some (Cause.readFail m))
    | Attempt.ok b => FetchResult.success (some b)     -- break; err == nil

/-- Runs `fetchData` for a fixed URL whose successive attempts behave as the
oracle `f` says (`f 1` is the first attempt). -/
def fetchData (f : Nat → Attempt) : FetchResult :=
  runAttempts ((List.range MaxRetries).map (fun i => f (i + 1))) none none

/-! ### Data model (types package)

Structures carry exactly the fields the verified code paths read; the Go
structs' remaining scalar attributes are opaque payload for those paths.
The nested anonymous Go structs (`pagination.items`, `user`, `anime`) are
flattened into named fields, which loses no information the code reads.

`AnimeStatistics.scores` is a Go `map[string]ScoreData`.  A Go map is a
finite map whose iteration order (`for k, v := range m`) is unspecified and
varies between runs; the model therefore represents the map together with
one concrete iteration order as an association list with pairwise-distinct
keys.  Two runs over the same map content see permuted lists. -/

/-- Score percentages are `float64` in Go; every value the claims exercise
is exactly representable, so the model uses `ℚ`. -/
structure ScoreData where
  votes : Int
  percentage : ℚ
  deriving DecidableEq, Repr

structure AnimeStatistics where
  watching : Int
  completed : Int
  onHold : Int
  dropped : Int
  planToWatch : Int
  total : Int
  scores : List (String × ScoreData)   -- map contents in iteration order
  deriving DecidableEq, Repr

structure AnimeData where
  malID : Int
  title : String
  statistics : Option AnimeStatistics
  deriving DecidableEq, Repr

structure ReviewData where
  malID : Int
  animeMalID : Int
  animeTitle : String
  username : String
  score : Int
  reviewedAt : String
  isSpoiler : Bool
  tags : List String
  review : String
  deriving DecidableEq, Repr

structure Pagination where
  lastVisiblePage : Int
  hasNextPage : Bool
  currentPage : Int
  itemsCount : Int
  itemsTotal : Int
  itemsPerPage : Int
  deriving DecidableEq, Repr

/-- Shared shape of `AnimeResponse` and `ReviewResponse`. -/
structure ApiListResponse (α : Type) where
  data : List α
  pagination : Pagination
  deriving DecidableEq, Repr

abbrev AnimeResponse := ApiListResponse AnimeData

abbrev ReviewResponse := ApiListResponse ReviewData

/-! ### Paginator (`GetTopAnime`, `GetAnimeReviews`)

Both functions run the identical loop

```
for len(all) < limit {
    body ← fetchData(url(page)); decode
    if len(data) == 0 || !pagination.HasNextPage { break }
    all = append(all, data...)
    if len(all) >= limit { all = all[:limit]; break }
    page++
}
```

The page oracle maps a page number to the decoded envelope, or to an error
(covering both a `fetchData` failure and a JSON unmarshal failure — either
one is returned from the function unchanged at this point of the loop).
Every iteration that continues appends at least one item (an empty page
breaks), so the loop runs at most `limit.toNat` iterations; `paginateAux`
makes that bound a structural fuel argument.  Whenever the fuel reaches 0
the guard `len(all) < limit` is false as well (see `paginateAux_fuel_zero`
style invariants in the proofs), so the fuel-0 branch returns what the
exited loop returns. -/

def paginateAux {α ε : Type} (fetch : Nat → Except ε (ApiListResponse α)) (limit : Int) :
    Nat → Nat → List α → Except ε (List α)
  | 0, _, acc => Except.ok acc
  | fuel + 1, page, acc =>
    if ((acc.length : Int) < limit) then
      match fetch page with
      | Except.error e => Except.error e
      | Except.ok pg =>
        if pg.data.isEmpty || !pg.pagination.hasNextPage then
          Except.ok acc
        else if limit ≤ ((acc ++ pg.data).length : Int) then
          Except.ok ((acc ++ pg.data).take limit.toNat)
        else
          paginateAux fetch limit fuel (page + 1) (acc ++ pg.data)
    else
      Except.ok acc

/-- Models `GetTopAnime(limit)` with the page oracle `fetch` standing for
"fetch and decode `/top/anime?page=n`". -/
def GetTopAnime {ε : Type} (fetch : Nat → Except ε AnimeResponse) (limit : Int) :
    Except ε (List AnimeData) :=
  paginateAux fetch limit limit.toNat 1 []

/-- Models `GetAnimeReviews(malID, limit)` with the page oracle `fetch` standing
for "fetch and decode `/anime/{malID}/reviews?page=n`". -/
def GetAnimeReviews {ε : Type} (fetch : Int → Nat → Except ε ReviewResponse)
    (malID : Int) (limit : Int) : Except ε (List ReviewData) :=
  paginateAux (fetch malID) limit limit.toNat 1 []

/-! Instrumentations of the same loop, used to state claims about the run
itself (pages requested, pages whose items were accumulated, reason the
loop stopped).  Each mirrors `paginateAux` clause by clause. -/

/-- Number of page requests the loop issues (each iteration of the loop
body issues exactly one). -/
def pagesFetchedAux {α ε : Type} (fetch : Nat → Except ε (ApiListResponse α)) (limit : Int) :
    Nat → Nat → List α → Nat
  | 0, _, _ => 0
  | fuel + 1, page, acc =>
    if ((acc.length : Int) < limit) then
      match fetch page with
      | Except.error _ => 1
      | Except.ok pg =>
        if pg.data.isEmpty || !pg.pagination.hasNextPage then 1
        else if limit ≤ ((acc ++ pg.data).length : Int) then 1
        else 1 + pagesFetchedAux fetch limit fuel (page + 1) (acc ++ pg.data)
    else 0

/-- The successfully decoded pages the loop saw, in order (on a fetch
error the run aborts; the envelopes seen up to then are not relevant to
any successful run). -/
def seenPagesAux {α ε : Type} (fetch : Nat → Except ε (ApiListResponse α)) (limit : Int) :
    Nat → Nat → List α → List (ApiListResponse α)
  | 0, _, _ => []
  | fuel + 1, page, acc =>
    if ((acc.length : Int) < limit) then
      match fetch page with
      | Except.error _ => []
      | Except.ok pg =>
        if pg.data.isEmpty || !pg.pagination.hasNextPage then [pg]
        else if limit ≤ ((acc ++ pg.data).length : Int) then [pg]
        else pg :: seenPagesAux fetch limit fuel (page + 1) (acc ++ pg.data)
    else []

/-- Total number of items the loop appends to the accumulator (items of a
page that triggers the empty-page / no-next-page break are never
appended). -/
def accCountAux {α ε : Type} (fetch : Nat → Except ε (ApiListResponse α)) (limit : Int) :
    Nat → Nat → List α → Nat
  | 0, _, _ => 0
  | fuel + 1, page, acc =>
    if ((acc.length : Int) < limit) then
      match fetch page with
      | Except.error _ => 0
      | Except.ok pg =>
        if pg.data.isEmpty || !pg.pagination.hasNextPage then 0
        else if limit ≤ ((acc ++ pg.data).length : Int) then pg.data.length
        else pg.data.length + accCountAux fetch limit fuel (page + 1) (acc ++ pg.data)
    else 0

/-- Why the loop stopped.  The order of the checks in the loop body is the
order of the Go source: the short-circuit `len(data) == 0 ||
!HasNextPage` tests emptiness first, and the target-count check runs only
after the append. -/
inductive StopReason
  | emptyPage      -- (a) fetched page had no items
  | noNextPage     -- (b) fetched page reported has_next_page = false
  | reachedTarget  -- (c) accumulated count reached the target
  | fetchFailed    -- fetch/decode error aborted the loop
  | notEntered     -- the guard `len(all) < limit` was false up front
  deriving DecidableEq, Repr

def stopReasonAux {α ε : Type} (fetch : Nat → Except ε (ApiListResponse α)) (limit : Int) :
    Nat → Nat → List α → StopReason
  | 0, _, _ => StopReason.notEntered
  | fuel + 1, page, acc =>
    if ((acc.length : Int) < limit) then
      match fetch page with
      | Except.error _ => StopReason.fetchFailed
      | Except.ok pg =>
        if pg.data.isEmpty then StopReason.emptyPage
        else if !pg.pagination.hasNextPage then StopReason.noNextPage
        else if limit ≤ ((acc ++ pg.data).length : Int) then StopReason.reachedTarget
        else stopReasonAux fetch limit fuel (page + 1) (acc ++ pg.data)
    else StopReason.notEntered

def topPagesFetched {ε : Type} (fetch : Nat → Except ε AnimeResponse) (limit : Int) : Nat :=
  pagesFetchedAux fetch limit limit.toNat 1 []

def topSeenPages {ε : Type} (fetch : Nat → Except ε AnimeResponse) (limit : Int) :
    List AnimeResponse :=
  seenPagesAux fetch limit limit.toNat 1 []

def topAccCount {ε : Type} (fetch : Nat → Except ε AnimeResponse) (limit : Int) : Nat :=
  accCountAux fetch limit limit.toNat 1 []

def topStopReason {ε : Type} (fetch : Nat → Except ε AnimeResponse) (limit : Int) : StopReason :=
  stopReasonAux fetch limit limit.toNat 1 []

def reviewsPagesFetched {ε : Type} (fetch : Int → Nat → Except ε ReviewResponse)
    (malID : Int) (limit : Int) : Nat :=
  pagesFetchedAux (fetch malID) limit limit.toNat 1 []

def reviewsSeenPages {ε : Type} (fetch : Int → Nat → Except ε ReviewResponse)
    (malID : Int) (limit : Int) : List ReviewResponse :=
  seenPagesAux (fetch malID) limit limit.toNat 1 []

def reviewsAccCount {ε : Type} (fetch : Int → Nat → Except ε ReviewResponse)
    (malID : Int) (limit : Int) : Nat :=
  accCountAux (fetch malID) limit limit.toNat 1 []

def reviewsStopReason {ε : Type} (fetch : Int → Nat → Except ε ReviewResponse)
    (malID : Int) (limit : Int) : StopReason :=
  stopReasonAux (fetch malID) limit limit.toNat 1 []

/-! ### Tabular projector (exporter/csv-exporter.go)

The export functions are modelled down to the row sets handed to the CSV
writer: a table is a header row followed by data rows, each row a
`List String`.  `os.Create`/`csv.Writer` I/O is out of scope. -/

/-- Models `strconv.Itoa` / integer field rendering. Lean's `toString` on `Int`
produces the same decimal form Go does. -/
def itoa (n : Int) : String := toString n

/-- Models `strconv.FormatBool`. -/
def formatBool (b : Bool) : String := if b then "true" else "false"

/-- Models `strconv.Atoi`: optional sign followed by at least one decimal digit;
anything else is an error (`none`). Overflow is irrelevant at the sizes in
play. -/
def digitsToNat? : List Char → Option Nat
  | [] => none
  | cs =>
    if cs.all (fun c => c.isDigit) then
      some (cs.foldl (fun n c => 10 * n + (c.toNat - 48)) 0)
    else none

def atoi? (s : String) : Option Int :=
  match s.data with
  | '+' :: rest => (digitsToNat? rest).map (fun n => (n : Int))
  | '-' :: rest => (digitsToNat? rest).map (fun n => -(n : Int))
  | cs => (digitsToNat? cs).map (fun n => (n : Int))

/-- The score-key routing of `ExportAnimeStatistics`: `strconv.Atoi` the
key, keep it only if `1 <= scoreInt && scoreInt <= 10`, and use
`idx := scoreInt - 1`. -/
def parsedIdx? (key : String) : Option Nat :=
  match atoi? key with
  | none => none
  | some si => if 1 ≤ si ∧ si ≤ 10 then some (si - 1).toNat else none

/-- Models `strconv.FormatFloat(x, 'f', 2, 64)` for the non-negative,
two-decimal-exact values the statistics rows carry (e.g. `12.34`, `3.00`).
Renders with exactly two digits after the point. -/
def formatFixed2 (q : ℚ) : String :=
  let cents := (q * 100).floor.toNat
  let frac := cents % 100
  itoa (cents / 100 : Nat) ++ "." ++ (if frac < 10 then "0" ++ itoa frac else itoa frac)

/-- One step of the `for scoreStr, scoreData := range anime.Statistics.Scores`
loop: parse the key, ignore it unless it lands in 1–10, otherwise write the
votes/percentage strings into slot `idx` of the two 10-element arrays. -/
def fillScoreStep (vp : List String × List String) (kv : String × ScoreData) :
    List String × List String :=
  match parsedIdx? kv.1 with
  | none => vp
  | some idx => (vp.1.set idx (itoa kv.2.votes), vp.2.set idx (formatFixed2 kv.2.percentage))

/-- The `scoreVotes` / `scorePercentages` arrays after the range loop, both
initialized to ten `"0"` entries. The fold order is the map iteration
order recorded in the association list. -/
def fillScoreCols (scores : List (String × ScoreData)) : List String × List String :=
  scores.foldl fillScoreStep (List.replicate 10 "0", List.replicate 10 "0")

def statisticsHeader : List String :=
  ["anime_id", "watching", "completed", "on_hold", "dropped",
   "plan_to_watch", "total_stats",
   "score_1_votes", "score_1_percentage",
   "score_2_votes", "score_2_percentage",
   "score_3_votes", "score_3_percentage",
   "score_4_votes", "score_4_percentage",
   "score_5_votes", "score_5_percentage",
   "score_6_votes", "score_6_percentage",
   "score_7_votes", "score_7_percentage",
   "score_8_votes", "score_8_percentage",
   "score_9_votes", "score_9_percentage",
   "score_10_votes", "score_10_percentage"]

/-- The `for i := 0; i < 10; i++ { row = append(row, votes[i], pcts[i]) }`
interleaving. -/
def interleavePairs : List String → List String → List String
  | v :: vs, p :: ps => v :: p :: interleavePairs vs ps
  | _, _ => []

/-- The statistics row for one entry that has a snapshot. -/
def statisticsRowCore (malID : Int) (st : AnimeStatistics) : List String :=
  [itoa malID, itoa st.watching, itoa st.completed, itoa st.onHold,
   itoa st.dropped, itoa st.planToWatch, itoa st.total] ++
    interleavePairs (fillScoreCols st.scores).1 (fillScoreCols st.scores).2

/-- The contribution of one entry to the statistics table: entries whose
`Statistics` pointer is nil are skipped (`continue`). -/
def statisticsRow (a : AnimeData) : Option (List String) :=
  match a.statistics with
  | none => none
  | some st => some (statisticsRowCore a.malID st)

/-- The row set `ExportAnimeStatistics` writes: header, then one row per
entry with a snapshot, in input order. -/
def exportAnimeStatisticsRows (animeList : List AnimeData) : List (List String) :=
  statisticsHeader :: animeList.filterMap statisticsRow

/-- Models `strings.ReplaceAll` for a single-character pattern and replacement
(the only shape the exporter uses: `"\n" → " "` and `"\r" → " "`). -/
def replaceAllChar (s : String) (pattern replacement : Char) : String :=
  String.mk (s.data.map (fun c => if c = pattern then replacement else c))

/-- The cleaning pipeline of `ExportAnimeReviews`:
`reviewText := ReplaceAll(review, "\n", " "); ReplaceAll(reviewText, "\r", " ")`. -/
def cleanedReview (s : String) : String :=
  replaceAllChar (replaceAllChar s '\n' ' ') '\r' ' '

/-- Character-level rendering of the review-text field after cleaning and
truncation.  It agrees with the program exactly on bodies whose characters
are single-byte (ASCII); the byte-faithful model of the truncation step —
the one the Go `len`/slicing actually perform — is `exportedReviewBytes`
below. -/
def exportedReviewText (s : String) : String :=
  if 32000 < (cleanedReview s).length then String.mk ((cleanedReview s).data.take 32000) ++ "..."
  else cleanedReview s

/-- The UTF-8 bytes of a string.  A Go string is a byte slice: `len(s)`
counts these bytes and `s[:n]` slices them, regardless of character
boundaries. -/
def utf8Bytes (s : String) : List Nat :=
  s.data.flatMap (fun c => (String.utf8EncodeChar c).map (fun b => b.toNat))

/-- Byte-level model of the truncation step of `ExportAnimeReviews`: the
Go code tests `len(reviewText) > 32000` and slices `reviewText[:32000]` on
the UTF-8 bytes of the cleaned body, then appends the three marker bytes
of `"..."`; the cut can fall inside a multibyte character. -/
def exportedReviewBytes (s : String) : List Nat :=
  if 32000 < (utf8Bytes (cleanedReview s)).length then
    (utf8Bytes (cleanedReview s)).take 32000 ++ utf8Bytes "..."
  else utf8Bytes (cleanedReview s)

/-- A review body of 32,000 characters but 32,001 UTF-8 bytes: one
two-byte character followed by 31,999 ASCII characters. -/
def mbBody : String := String.mk ('é' :: List.replicate 31999 'a')

def reviewsHeader : List String :=
  ["review_id", "anime_id", "anime_title",
   "reviewer_username", "score", "date",
   "is_spoiler", "tags", "review_text"]

def reviewRow (review : ReviewData) : List String :=
  [itoa review.malID, itoa review.animeMalID, review.animeTitle,
   review.username, itoa review.score, review.reviewedAt,
   formatBool review.isSpoiler, String.intercalate "|" review.tags,
   exportedReviewText review.review]

/-- The row set `ExportAnimeReviews` writes: header, then one row per
review, in input order. -/
def exportAnimeReviewsRows (reviews : List ReviewData) : List (List String) :=
  reviewsHeader :: reviews.map reviewRow

/-! ### Collector workflow (`CollectAnimeData`)

The orchestrator is modelled from the top-anime fetch onward, with the API
calls as oracles, and its observable output taken to be the statistics and
reviews tables (the basic/genre/studio tables are straight per-item maps
over `topAnime` and play no role in the claims; file-system errors are out
of scope).  A failed per-item `GetAnimeDetails` or `GetAnimeReviews` call
is logged and `continue`d over in the source; here that is the
`Except.toOption`/empty-list fallback. -/

def CollectAnimeData {ε : Type} (getTopAnime : Int → Except ε (List AnimeData))
    (getAnimeDetails : Int → Except ε AnimeData)
    (getAnimeReviews : Int → Int → Except ε (List ReviewData)) :
    Except ε (List (List String) × List (List String)) :=
  match getTopAnime MaxItemsToFetch with
  | Except.error e => Except.error e     -- "failed to fetch top anime: %w"
  | Except.ok topAnime =>
    -- statistics pass: limit := min(MaxItemsToFetch, 100); skip failures
    let lim : Int := min MaxItemsToFetch 100
    let enrichedAnime : List AnimeData :=
      (topAnime.take lim.toNat).filterMap (fun anime => (getAnimeDetails anime.malID).toOption)
    -- reviews pass: animeForReviews := min(20, len(topAnime)); 50 reviews each
    let animeForReviews : Int := min 20 (topAnime.length : Int)
    let allReviews : List ReviewData :=
      (topAnime.take animeForReviews.toNat).flatMap
        (fun anime =>
          match getAnimeReviews anime.malID 50 with
          | Except.ok reviews => reviews
          | Except.error _ => [])
    Except.ok (exportAnimeStatisticsRows enrichedAnime, exportAnimeReviewsRows allReviews)

/-! ### Determinism predicates (for the iteration-order analysis)

`scoreKeysNoAlias` is the condition under which the statistics projection
is independent of the score-map iteration order: the keys are pairwise
distinct (always true for a Go map) and no two distinct keys parse to the
same in-range score index (true for the canonical keys `"1"`–`"10"`, but
violated e.g. by `"1"` together with `"01"`). -/

def scoreKeysNoAlias (scores : List (String × ScoreData)) : Prop :=
  (scores.map Prod.fst).Nodup ∧
    ∀ p ∈ scores, ∀ q ∈ scores,
      parsedIdx? p.1 ≠ none → parsedIdx? p.1 = parsedIdx? q.1 → p.1 = q.1

/-- Two optional snapshots with the same content: equal status counts and
score maps that are permutations of one another (same finite map, possibly
different iteration order), the left one alias-free. -/
def SameSnapshot : Option AnimeStatistics → Option AnimeStatistics → Prop
  | none, none => True
  | some s, some t =>
    s.watching = t.watching ∧ s.completed = t.completed ∧ s.onHold = t.onHold ∧
      s.dropped = t.dropped ∧ s.planToWatch = t.planToWatch ∧ s.total = t.total ∧
      s.scores.Perm t.scores ∧ scoreKeysNoAlias s.scores
  | _, _ => False

/-- Two catalog entries with the same content as far as the statistics
table reads them. -/
def SameEntry (a b : AnimeData) : Prop :=
  a.malID = b.malID ∧ SameSnapshot a.statistics b.statistics

/-! ### Concrete fixtures used by counterexamples and witnesses -/

def entryA : AnimeData := ⟨101, "Frieren", none⟩

def entryB : AnimeData := ⟨102, "Monster", none⟩

def entryC : AnimeData := ⟨103, "Gintama", none⟩

/-- A single page holding two items and reporting no next page. -/
def lastPage : AnimeResponse := ⟨[entryA, entryB], ⟨1, false, 1, 2, 2, 25⟩⟩

def lastPageFetch : Nat → Except Unit AnimeResponse := fun _ => Except.ok lastPage

/-- An endless supply of 3-item pages that report a next page. -/
def fullPage : AnimeResponse := ⟨[entryA, entryB, entryC], ⟨4, true, 1, 3, 12, 25⟩⟩

def fullPageFetch : Nat → Except Unit AnimeResponse := fun _ => Except.ok fullPage

def reviewFix : ReviewData := ⟨9001, 101, "Frieren", "alice", 9, "2024-01-01", false, ["story"], "good"⟩

def reviewPage : ReviewResponse := ⟨[reviewFix], ⟨3, true, 1, 1, 3, 25⟩⟩

def reviewPageFetch : Int → Nat → Except Unit ReviewResponse := fun _ _ => Except.ok reviewPage

/-- Score maps with the aliasing keys `"1"` and `"01"` (both parse to score
1), in the two iteration orders a Go map range may produce. -/
def aliasScoresA : List (String × ScoreData) := [("1", ⟨5, 12.34⟩), ("01", ⟨9, 1⟩)]

def aliasScoresB : List (String × ScoreData) := [("01", ⟨9, 1⟩), ("1", ⟨5, 12.34⟩)]

def aliasEntryA : AnimeData := ⟨1, "X", some ⟨10, 20, 3, 4, 5, 42, aliasScoresA⟩⟩

def aliasEntryB : AnimeData := ⟨1, "X", some ⟨10, 20, 3, 4, 5, 42, aliasScoresB⟩⟩

/-- The canonical two-key score map of the round-trip claim, in both
iteration orders. -/
def roundTripScores : List (String × ScoreData) := [("1", ⟨5, 12.34⟩), ("7", ⟨2, 3.00⟩)]

def roundTripScoresRev : List (String × ScoreData) := [("7", ⟨2, 3.00⟩), ("1", ⟨5, 12.34⟩)]

/-- Entries carrying the canonical round-trip snapshot in the two
iteration orders. -/
def rtEntryA : AnimeData := ⟨7, "Y", some ⟨1, 2, 3, 4, 5, 6, roundTripScores⟩⟩

def rtEntryB : AnimeData := ⟨7, "Y", some ⟨1, 2, 3, 4, 5, 6, roundTripScoresRev⟩⟩

/-- The top-anime list used by the collector witness. -/
def topFix : List AnimeData := [⟨1, "A", none⟩, ⟨2, "B", none⟩]

def getTopFix : Int → Except Unit (List AnimeData) := fun _ => Except.ok topFix

/-- A detail oracle that fails on ID 1 and echoes the requested ID back
otherwise. -/
def getDetailsFix : Int → Except Unit AnimeData := fun id =>
  if id = 1 then Except.error () else Except.ok ⟨id, "B", none⟩

/-- A review oracle that fails on ID 1 and returns no reviews otherwise. -/
def getReviewsFix : Int → Int → Except Unit (List ReviewData) := fun id _ =>
  if id = 1 then Except.error () else Except.ok []

/-! ## Helper lemmas -/

/-- The two character replacements compose to one map that sends both
line-break characters to a space. -/
theorem cleanedReview_data (s : String) :
    (cleanedReview s).data =
      s.data.map (fun c => if c = '\n' ∨ c = '\r' then ' ' else c) := by
  simp only [cleanedReview, replaceAllChar, List.map_map]
  refine congrArg (fun f => List.map f s.data) (funext fun c => ?_)
  by_cases h1 : c = '\n'
  · subst h1; rfl
  · by_cases h2 : c = '\r'
    · subst h2; rfl
    · simp [Function.comp, h1, h2]

theorem cleanedReview_length (s : String) :
    (cleanedReview s).length = s.length := by
  rw [String.length, String.length, cleanedReview_data, List.length_map]

/-- Flat-mapping the UTF-8 encoder over a repeated single-byte character
yields the repeated byte. -/
theorem utf8Bytes_flatMap_replicate (n : Nat) (c : Char) (b : Nat)
    (h : (String.utf8EncodeChar c).map (fun x => x.toNat) = [b]) :
    (List.replicate n c).flatMap
        (fun c => (String.utf8EncodeChar c).map (fun x => x.toNat)) =
      List.replicate n b := by
  induction n with
  | zero => rfl
  | succ n ih =>
    rw [List.replicate_succ, List.flatMap_cons, h, ih]
    rfl


theorem paginateAux_ok_length {α ε : Type} (fetch : Nat → Except ε (ApiListResponse α))
    (limit : Int) :
    ∀ (fuel page : Nat) (acc l : List α),
      limit.toNat ≤ fuel + acc.length →
      ((acc.length : Int) < limit ∨ acc = []) →
      paginateAux fetch limit fuel page acc = Except.ok l →
      l.length = min limit.toNat (acc.length + accCountAux fetch limit fuel page acc) := by
  intro fuel
  induction fuel with
  | zero =>
    intro page acc l hfuel hacc hrun
    simp only [paginateAux, Except.ok.injEq] at hrun
    subst hrun
    simp only [accCountAux]
    rcases hacc with h | h
    · omega
    · subst h; simp only [List.length_nil]; omega
  | succ fuel ih =>
    intro page acc l hfuel hacc hrun
    simp only [paginateAux] at hrun
    simp only [accCountAux]
    by_cases hg : ((acc.length : Int) < limit)
    · rw [if_pos hg] at hrun
      rw [if_pos hg]
      cases hfp : fetch page with
      | error e =>
        rw [hfp] at hrun
        exact absurd hrun (by simp)
      | ok pg =>
        rw [hfp] at hrun
        dsimp only at hrun ⊢
        by_cases hbreak : (pg.data.isEmpty || !pg.pagination.hasNextPage) = true
        · rw [if_pos hbreak] at hrun
          rw [if_pos hbreak]
          injection hrun with hrun
          subst hrun
          omega
        · rw [if_neg hbreak] at hrun
          rw [if_neg hbreak]
          by_cases hfull : limit ≤ (((acc ++ pg.data).length : Int))
          · rw [if_pos hfull] at hrun
            rw [if_pos hfull]
            injection hrun with hrun
            subst hrun
            rw [List.length_take, List.length_append]
          · rw [if_neg hfull] at hrun
            rw [if_neg hfull]
            have hne : pg.data ≠ [] := by
              intro h0
              simp [h0] at hbreak
            have hlen : 0 < pg.data.length := List.length_pos.mpr hne
            have hrec := ih (page + 1) (acc ++ pg.data) l
              (by rw [List.length_append]; omega)
              (Or.inl (by omega))
              hrun
            rw [hrec, List.length_append]
            omega
    · rw [if_neg hg] at hrun
      rw [if_neg hg]
      injection hrun with hrun
      subst hrun
      rcases hacc with h | h
      · exact absurd h hg
      · subst h; simp only [List.length_nil]; omega


theorem paginateAux_stop_facts {α ε : Type} (fetch : Nat → Except ε (ApiListResponse α))
    (limit : Int) :
    ∀ (fuel page : Nat) (acc l : List α),
      limit.toNat ≤ fuel + acc.length →
      ((acc.length : Int) < limit) →
      paginateAux fetch limit fuel page acc = Except.ok l →
      (stopReasonAux fetch limit fuel page acc = StopReason.emptyPage ∨
        stopReasonAux fetch limit fuel page acc = StopReason.noNextPage ∨
        stopReasonAux fetch limit fuel page acc = StopReason.reachedTarget) ∧
        (stopReasonAux fetch limit fuel page acc = StopReason.reachedTarget →
          l.length = limit.toNat) ∧
        ((stopReasonAux fetch limit fuel page acc = StopReason.emptyPage ∨
          stopReasonAux fetch limit fuel page acc = StopReason.noNextPage) →
          (l.length : Int) < limit) := by
  intro fuel
  induction fuel with
  | zero =>
    intro page acc l hfuel hg hrun
    omega
  | succ fuel ih =>
    intro page acc l hfuel hg hrun
    simp only [paginateAux] at hrun
    rw [if_pos hg] at hrun
    simp only [stopReasonAux]
    rw [if_pos hg]
    cases hfp : fetch page with
    | error e =>
      rw [hfp] at hrun
      exact absurd hrun (by simp)
    | ok pg =>
      rw [hfp] at hrun
      dsimp only at hrun ⊢
      by_cases hemp : pg.data.isEmpty = true
      · rw [if_pos (show (pg.data.isEmpty || !pg.pagination.hasNextPage) = true by
          simp [hemp])] at hrun
        injection hrun with hrun
        subst hrun
        rw [if_pos hemp]
        exact ⟨Or.inl rfl, fun h => StopReason.noConfusion h, fun _ => hg⟩
      · rw [if_neg hemp]
        by_cases hnext : pg.pagination.hasNextPage = true
        · rw [if_neg (show ¬((pg.data.isEmpty || !pg.pagination.hasNextPage) = true) by
            simp [hemp, hnext])] at hrun
          rw [if_neg (show ¬((!pg.pagination.hasNextPage) = true) by simp [hnext])]
          by_cases hfull : limit ≤ (((acc ++ pg.data).length : Int))
          · rw [if_pos hfull] at hrun
            rw [if_pos hfull]
            injection hrun with hrun
            subst hrun
            refine ⟨Or.inr (Or.inr rfl), fun _ => ?_, fun h => ?_⟩
            · rw [List.length_take, List.length_append]
              rw [List.length_append] at hfull
              omega
            · rcases h with h | h <;> exact StopReason.noConfusion h
          · rw [if_neg hfull] at hrun
            rw [if_neg hfull]
            have hne : pg.data ≠ [] := by
              intro h0
              simp [h0] at hemp
            have hlen : 0 < pg.data.length := List.length_pos.mpr hne
            exact ih (page + 1) (acc ++ pg.data) l
              (by rw [List.length_append]; omega)
              (by omega)
              hrun
        · rw [if_pos (show (pg.data.isEmpty || !pg.pagination.hasNextPage) = true by
            simp [hnext])] at hrun
          injection hrun with hrun
          subst hrun
          rw [if_pos (show (!pg.pagination.hasNextPage) = true by simp [hnext])]
          exact ⟨Or.inr (Or.inl rfl), fun h => StopReason.noConfusion h, fun _ => hg⟩

/-- Value of `strconv.FormatFloat` at 1.0, format f with 2 decimals. -/
theorem formatFixed2_one : formatFixed2 1 = "1.00" := by
  unfold formatFixed2
  rw [show ((1 : ℚ) * 100).floor = 100 from by
    rw [show (1 : ℚ) * 100 = 100 by norm_num, Rat.floor_def']; norm_num]
  decide

/-- Value of `strconv.FormatFloat` at 12.34, format f with 2 decimals. -/
theorem formatFixed2_of_1234 : formatFixed2 12.34 = "12.34" := by
  unfold formatFixed2
  rw [show ((12.34 : ℚ) * 100).floor = 1234 from by
    rw [show (12.34 : ℚ) * 100 = 1234 by norm_num, Rat.floor_def']; norm_num]
  decide

/-- Two writes of the score loop commute when their keys do not alias the
same slot (the aliasing analysis behind iteration-order independence). -/
theorem fillScoreStep_comm (l : List (String × ScoreData)) (hal : scoreKeysNoAlias l) :
    ∀ x ∈ l, ∀ y ∈ l, ∀ z,
      fillScoreStep (fillScoreStep z x) y = fillScoreStep (fillScoreStep z y) x := by
  intro x hx y hy z
  obtain ⟨hnodup, hinj⟩ := hal
  cases hix : parsedIdx? x.1 with
  | none => simp [fillScoreStep, hix]
  | some i =>
    cases hiy : parsedIdx? y.1 with
    | none => simp [fillScoreStep, hix, hiy]
    | some j =>
      by_cases hij : i = j
      · subst hij
        have hkey : x.1 = y.1 := hinj x hx y hy (by rw [hix]; simp) (by rw [hix, hiy])
        have hxy : x = y := List.inj_on_of_nodup_map hnodup hx hy hkey
        subst hxy
        rfl
      · simp only [fillScoreStep, hix, hiy]
        exact congrArg₂ Prod.mk (List.set_comm _ _ _ hij) (List.set_comm _ _ _ hij)

/-- The score-column arrays do not depend on the map iteration order when
no two keys alias the same slot. -/
theorem fillScoreCols_perm (s₁ s₂ : List (String × ScoreData)) (hp : s₁.Perm s₂)
    (hal : scoreKeysNoAlias s₁) : fillScoreCols s₁ = fillScoreCols s₂ :=
  hp.foldl_eq' (fillScoreStep_comm s₁ hal) _

/-- Entries with the same content produce the same statistics-row
contribution. -/
theorem statisticsRow_congr (a b : AnimeData) (h : SameEntry a b) :
    statisticsRow a = statisticsRow b := by
  obtain ⟨hid, hsnap⟩ := h
  cases ha : a.statistics with
  | none =>
    cases hb : b.statistics with
    | none => simp [statisticsRow, ha, hb]
    | some t => rw [ha, hb] at hsnap; exact absurd hsnap (by simp [SameSnapshot])
  | some s =>
    cases hb : b.statistics with
    | none => rw [ha, hb] at hsnap; exact absurd hsnap (by simp [SameSnapshot])
    | some t =>
      rw [ha, hb] at hsnap
      simp only [SameSnapshot] at hsnap
      obtain ⟨h1, h2, h3, h4, h5, h6, hperm, hal⟩ := hsnap
      simp only [statisticsRow, ha, hb, statisticsRowCore]
      rw [hid, h1, h2, h3, h4, h5, h6, fillScoreCols_perm s.scores t.scores hperm hal]

/-! ## Claim theorems -/

/-- C1 (code bug): when every attempt fails, `fetchData` is supposed to
return an `Exhausted` error wrapping the last cause and no data.  But the
429 branch never assigns `err`, and `resp, err = c.httpClient.Get(url)`
resets `err` to nil on transport success — so when the *last* attempt is
rate-limited the function returns `(nil, nil)`: no error and no data, the
success shape.  Worse, a body kept from an earlier partial read is
returned as valid data.  This theorem evaluates the embedded `fetchData`
at the failing inputs. -/
theorem fetchData_rateLimited_exhaustion_bug :
    fetchData (fun _ => Attempt.rateLimited) = FetchResult.success none ∧
      fetchData (fun i =>
          if i = 1 then Attempt.readErr [104, 105] "unexpected EOF"
          else Attempt.rateLimited) =
        FetchResult.success (some [104, 105]) :=
  ⟨by decide, by decide⟩

/-- C4: the exported `review_text` contains no line feed and no carriage
return; the cleaning pass maps each line-break character (LF or CR) to a
single space. -/
theorem exported_review_text_no_line_breaks (s : String) :
    ('\n' ∉ (exportedReviewText s).data ∧ '\r' ∉ (exportedReviewText s).data) ∧
      (cleanedReview s).data =
        s.data.map (fun c => if c = '\n' ∨ c = '\r' then ' ' else c) := by
  refine ⟨?_, cleanedReview_data s⟩
  have hclean : ∀ c ∈ (cleanedReview s).data, c ≠ '\n' ∧ c ≠ '\r' := by
    intro c hc
    rw [cleanedReview_data] at hc
    obtain ⟨a, _, rfl⟩ := List.mem_map.mp hc
    by_cases h : a = '\n' ∨ a = '\r'
    · simp only [if_pos h]
      exact ⟨by decide, by decide⟩
    · simp only [if_neg h]
      exact ⟨fun hc => h (Or.inl hc), fun hc => h (Or.inr hc)⟩
  have hdots : ∀ c ∈ ("..." : String).data, c ≠ '\n' ∧ c ≠ '\r' := by decide
  unfold exportedReviewText
  constructor <;>
    · intro hmem
      split at hmem
      · rw [String.data_append] at hmem
        rcases List.mem_append.mp hmem with h | h
        · have := hclean _ (List.mem_of_mem_take (by simpa using h))
          tauto
        · have := hdots _ h
          tauto
      · have := hclean _ hmem
        tauto

/-- C5 (counterexample): the claim measures the body in characters, the
code in bytes.  After cleaning, `mbBody` has 32,000 characters — by the
claim it must be emitted unchanged with no marker — but it has 32,001
UTF-8 bytes, so the code truncates it: the emitted field is the first
32,000 bytes plus the marker, not the unchanged body. -/
theorem exported_review_truncation_char_counterexample :
    (cleanedReview mbBody).length ≤ 32000 ∧
      exportedReviewBytes mbBody =
        195 :: 169 :: (List.replicate 31998 97 ++ [46, 46, 46]) ∧
      exportedReviewBytes mbBody ≠ utf8Bytes (cleanedReview mbBody) := by
  have hd : (cleanedReview mbBody).data = 'é' :: List.replicate 31999 'a' := by
    rw [cleanedReview_data]
    show List.map _ ('é' :: List.replicate 31999 'a') = _
    simp only [List.map_cons, List.map_replicate]
    rw [show (if ('é' = '\n' ∨ 'é' = '\r') then ' ' else 'é') = 'é' from by decide,
      show (if ('a' = '\n' ∨ 'a' = '\r') then ' ' else 'a') = 'a' from by decide]
  have hb : utf8Bytes (cleanedReview mbBody) = 195 :: 169 :: List.replicate 31999 97 := by
    unfold utf8Bytes
    rw [hd, List.flatMap_cons,
      show (String.utf8EncodeChar 'é').map (fun x => x.toNat) = [195, 169] from by decide,
      utf8Bytes_flatMap_replicate 31999 'a' 97 (by decide)]
    rfl
  have hlenb : (utf8Bytes (cleanedReview mbBody)).length = 32001 := by
    rw [hb, List.length_cons, List.length_cons, List.length_replicate]
  have hexp : exportedReviewBytes mbBody =
      195 :: 169 :: (List.replicate 31998 97 ++ [46, 46, 46]) := by
    rw [exportedReviewBytes, if_pos (by omega), hb,
      show (32000 : Nat) = 31999 + 1 from by norm_num, List.take_succ_cons,
      show (31999 : Nat) = 31998 + 1 from by norm_num, List.take_succ_cons,
      List.take_replicate,
      show (31998 ⊓ (31998 + 1)) = 31998 from by omega,
      show utf8Bytes "..." = [46, 46, 46] from by decide]
    rfl
  have l1 : (195 :: 169 :: (List.replicate 31998 97 ++ [46, 46, 46])).length = 32003 := by
    rw [List.length_cons, List.length_cons, List.length_append, List.length_replicate]
    decide
  have l2 : (195 :: 169 :: List.replicate 31999 97).length = 32001 := by
    rw [List.length_cons, List.length_cons, List.length_replicate]
  refine ⟨?_, hexp, ?_⟩
  · rw [String.length, hd, List.length_cons, List.length_replicate]
  · rw [hexp, hb]
    intro h
    have hlen := congrArg List.length h
    rw [l1, l2] at hlen
    exact absurd hlen (by decide)

/-- C5 (amended): the truncation is measured and cut in UTF-8 bytes, as
the Go `len`/slicing are: a cleaned body longer than 32,000 bytes is
exported as its first 32,000 bytes followed by the marker bytes of
`"..."` (the cut may split a multibyte character); bodies of at most
32,000 bytes are emitted unchanged with no marker.  For ASCII bodies
bytes and characters coincide, so a 32,050-character ASCII body with no
embedded newlines still exports as its first 32,000 characters plus the
marker. -/
theorem exported_review_bytes_truncation (s : String) :
    (32000 < (utf8Bytes (cleanedReview s)).length →
        exportedReviewBytes s =
          (utf8Bytes (cleanedReview s)).take 32000 ++ utf8Bytes "...") ∧
      ((utf8Bytes (cleanedReview s)).length ≤ 32000 →
        exportedReviewBytes s = utf8Bytes (cleanedReview s)) ∧
      exportedReviewBytes (String.mk (List.replicate 32050 'a')) =
        List.replicate 32000 97 ++ [46, 46, 46] := by
  refine ⟨fun h => by rw [exportedReviewBytes, if_pos h],
    fun h => by rw [exportedReviewBytes, if_neg (by omega)], ?_⟩
  have hdata : (cleanedReview (String.mk (List.replicate 32050 'a'))).data =
      List.replicate 32050 'a' := by
    rw [cleanedReview_data]
    show (List.replicate 32050 'a').map _ = _
    rw [List.map_replicate]
    exact congrArg (List.replicate 32050) (by decide)
  have hb : utf8Bytes (cleanedReview (String.mk (List.replicate 32050 'a'))) =
      List.replicate 32050 97 := by
    unfold utf8Bytes
    rw [hdata, utf8Bytes_flatMap_replicate 32050 'a' 97 (by decide)]
  rw [exportedReviewBytes, if_pos (by rw [hb, List.length_replicate]; norm_num), hb,
    List.take_replicate, show (32000 ⊓ 32050) = 32000 from by norm_num,
    show utf8Bytes "..." = [46, 46, 46] from by decide]

/-- Witness for the amended C5 at the 32,050-character ASCII body. -/
theorem exported_review_bytes_truncation_witness :
    32000 < (utf8Bytes (cleanedReview (String.mk (List.replicate 32050 'a')))).length ∧
      exportedReviewBytes (String.mk (List.replicate 32050 'a')) =
        (utf8Bytes (cleanedReview (String.mk (List.replicate 32050 'a')))).take 32000 ++
          utf8Bytes "..." := by
  have hdata : (cleanedReview (String.mk (List.replicate 32050 'a'))).data =
      List.replicate 32050 'a' := by
    rw [cleanedReview_data]
    show (List.replicate 32050 'a').map _ = _
    rw [List.map_replicate]
    exact congrArg (List.replicate 32050) (by decide)
  have h : 32000 <
      (utf8Bytes (cleanedReview (String.mk (List.replicate 32050 'a')))).length := by
    unfold utf8Bytes
    rw [hdata, utf8Bytes_flatMap_replicate 32050 'a' 97 (by decide), List.length_replicate]
    norm_num
  exact ⟨h, (exported_review_bytes_truncation _).1 h⟩

/-- C7: projecting the snapshot `{"1": (5 votes, 12.34), "7": (2 votes,
3.00)}` (in either map iteration order) yields the score-1 pair
`("5","12.34")`, the score-7 pair `("2","3.00")` and `("0","0")` for the
other eight pairs; a key that is non-numeric or parses outside the closed
range [1,10] is ignored and the row is unaffected. -/
theorem statistics_score_projection :
    (∀ (malID w comp hold dropd plan tot : Int),
        statisticsRowCore malID ⟨w, comp, hold, dropd, plan, tot, roundTripScores⟩ =
          [itoa malID, itoa w, itoa comp, itoa hold, itoa dropd, itoa plan, itoa tot,
           "5", "12.34", "0", "0", "0", "0", "0", "0", "0", "0", "0", "0",
           "2", "3.00", "0", "0", "0", "0", "0", "0"]) ∧
      (∀ (malID w comp hold dropd plan tot : Int),
        statisticsRowCore malID ⟨w, comp, hold, dropd, plan, tot, roundTripScoresRev⟩ =
          [itoa malID, itoa w, itoa comp, itoa hold, itoa dropd, itoa plan, itoa tot,
           "5", "12.34", "0", "0", "0", "0", "0", "0", "0", "0", "0", "0",
           "2", "3.00", "0", "0", "0", "0", "0", "0"]) ∧
      ∀ (malID w comp hold dropd plan tot : Int)
        (pre post : List (String × ScoreData)) (key : String) (sd : ScoreData),
        (atoi? key = none ∨ ∀ si : Int, atoi? key = some si → si < 1 ∨ 10 < si) →
        statisticsRowCore malID ⟨w, comp, hold, dropd, plan, tot, pre ++ (key, sd) :: post⟩ =
          statisticsRowCore malID ⟨w, comp, hold, dropd, plan, tot, pre ++ post⟩ := by
  have hf1 : formatFixed2 12.34 = "12.34" := by
    unfold formatFixed2
    rw [show ((12.34 : ℚ) * 100).floor = 1234 from by
      rw [show (12.34 : ℚ) * 100 = 1234 by norm_num, Rat.floor_def']; norm_num]
    decide
  have hf2 : formatFixed2 3.00 = "3.00" := by
    unfold formatFixed2
    rw [show ((3.00 : ℚ) * 100).floor = 300 from by
      rw [show (3.00 : ℚ) * 100 = 300 by norm_num, Rat.floor_def']; norm_num]
    decide
  have hA : fillScoreCols roundTripScores =
      (["5", "0", "0", "0", "0", "0", "2", "0", "0", "0"],
       ["12.34", "0", "0", "0", "0", "0", "3.00", "0", "0", "0"]) := by
    simp only [roundTripScores, fillScoreCols, List.foldl_cons, List.foldl_nil, fillScoreStep,
      show parsedIdx? "1" = some 0 from by decide,
      show parsedIdx? "7" = some 6 from by decide, hf1, hf2]
    decide
  have hB : fillScoreCols roundTripScoresRev =
      (["5", "0", "0", "0", "0", "0", "2", "0", "0", "0"],
       ["12.34", "0", "0", "0", "0", "0", "3.00", "0", "0", "0"]) := by
    simp only [roundTripScoresRev, fillScoreCols, List.foldl_cons, List.foldl_nil, fillScoreStep,
      show parsedIdx? "1" = some 0 from by decide,
      show parsedIdx? "7" = some 6 from by decide, hf1, hf2]
    decide
  refine ⟨fun malID w comp hold dropd plan tot => ?_,
    fun malID w comp hold dropd plan tot => ?_,
    fun malID w comp hold dropd plan tot pre post key sd hout => ?_⟩
  · rw [statisticsRowCore]
    show _ ++ interleavePairs (fillScoreCols roundTripScores).1 (fillScoreCols roundTripScores).2 = _
    rw [hA]
    rfl
  · rw [statisticsRowCore]
    show _ ++ interleavePairs (fillScoreCols roundTripScoresRev).1 (fillScoreCols roundTripScoresRev).2 = _
    rw [hB]
    rfl
  · have hparse : parsedIdx? key = none := by
      unfold parsedIdx?
      cases hA2 : atoi? key with
      | none => rfl
      | some si =>
        rcases hout with h | h
        · rw [hA2] at h; exact absurd h (by simp)
        · have hsi := h si hA2
          show (if 1 ≤ si ∧ si ≤ 10 then some (si - 1).toNat else none) = none
          exact if_neg (by omega)
    have hcols : fillScoreCols (pre ++ (key, sd) :: post) = fillScoreCols (pre ++ post) := by
      simp only [fillScoreCols, List.foldl_append, List.foldl_cons]
      congr 1
      simp [fillScoreStep, hparse]
    rw [statisticsRowCore, statisticsRowCore]
    show _ ++ interleavePairs (fillScoreCols (pre ++ (key, sd) :: post)).1
        (fillScoreCols (pre ++ (key, sd) :: post)).2 = _
    rw [hcols]

/-- Witness for C7: the out-of-range key `"11"` and the non-numeric key
`"abc"` are ignored. -/
theorem statistics_score_projection_witness :
    statisticsRowCore 7 ⟨1, 2, 3, 4, 5, 6, [("11", ⟨9, 1⟩), ("1", ⟨5, 12.34⟩)]⟩ =
        statisticsRowCore 7 ⟨1, 2, 3, 4, 5, 6, [("1", ⟨5, 12.34⟩)]⟩ ∧
      statisticsRowCore 7 ⟨1, 2, 3, 4, 5, 6, [("abc", ⟨9, 1⟩), ("1", ⟨5, 12.34⟩)]⟩ =
        statisticsRowCore 7 ⟨1, 2, 3, 4, 5, 6, [("1", ⟨5, 12.34⟩)]⟩ := by
  constructor
  · exact statistics_score_projection.2.2 7 1 2 3 4 5 6 [] [("1", ⟨5, 12.34⟩)] "11" ⟨9, 1⟩
      (Or.inr (fun si h => by
        rw [show atoi? "11" = some 11 from by decide] at h
        injection h with h
        omega))
  · exact statistics_score_projection.2.2 7 1 2 3 4 5 6 [] [("1", ⟨5, 12.34⟩)] "abc" ⟨9, 1⟩
      (Or.inl (by decide))

/-- C8: the statistics table has exactly one row per entry carrying a
snapshot (plus the header); entries without a snapshot are silently
skipped and contribute nothing — dropping them from the input leaves the
table unchanged, and the export is total (never an error). -/
theorem statistics_rows_iff_snapshot (animeList : List AnimeData) :
    (exportAnimeStatisticsRows animeList).length =
        1 + animeList.countP (fun a => a.statistics.isSome) ∧
      exportAnimeStatisticsRows (animeList.filter (fun a => a.statistics.isSome)) =
        exportAnimeStatisticsRows animeList := by
  have key : ∀ l : List AnimeData,
      (l.filter (fun a => a.statistics.isSome)).filterMap statisticsRow =
          l.filterMap statisticsRow ∧
        (l.filterMap statisticsRow).length = l.countP (fun a => a.statistics.isSome) := by
    intro l
    induction l with
    | nil => simp
    | cons a t ih =>
      cases ha : a.statistics with
      | none =>
        refine ⟨?_, ?_⟩ <;>
          simp [List.filter_cons, List.filterMap_cons, statisticsRow, ha,
            List.countP_cons, ih.1, ih.2]
      | some st =>
        refine ⟨?_, ?_⟩ <;>
          simp [List.filter_cons, List.filterMap_cons, statisticsRow, ha,
            List.countP_cons, ih.1, ih.2]
  refine ⟨?_, ?_⟩
  · simp only [exportAnimeStatisticsRows, List.length_cons, (key animeList).2]
    omega
  · simp only [exportAnimeStatisticsRows, (key animeList).1]

/-- C10: a non-positive limit makes both paginated fetchers return an
empty collection with no error and issue no page request at all. -/
theorem paginator_nonpositive_limit (ε : Type) (fetch : Nat → Except ε AnimeResponse)
    (rfetch : Int → Nat → Except ε ReviewResponse) (malID : Int) (limit : Int)
    (hlim : limit ≤ 0) :
    GetTopAnime fetch limit = Except.ok [] ∧ topPagesFetched fetch limit = 0 ∧
      GetAnimeReviews rfetch malID limit = Except.ok [] ∧
      reviewsPagesFetched rfetch malID limit = 0 := by
  have h0 : limit.toNat = 0 := Int.toNat_of_nonpos hlim
  refine ⟨?_, ?_, ?_, ?_⟩ <;>
    simp [GetTopAnime, GetAnimeReviews, topPagesFetched, reviewsPagesFetched, h0,
      paginateAux, pagesFetchedAux]

/-- Witness for C10 at the limits 0 and -3. -/
theorem paginator_nonpositive_limit_witness :
    (GetTopAnime lastPageFetch 0 = Except.ok [] ∧ topPagesFetched lastPageFetch 0 = 0) ∧
      GetAnimeReviews reviewPageFetch 5 (-3) = Except.ok [] ∧
      reviewsPagesFetched reviewPageFetch 5 (-3) = 0 :=
  ⟨⟨(paginator_nonpositive_limit Unit lastPageFetch reviewPageFetch 5 0 (by decide)).1,
      (paginator_nonpositive_limit Unit lastPageFetch reviewPageFetch 5 0 (by decide)).2.1⟩,
    (paginator_nonpositive_limit Unit lastPageFetch reviewPageFetch 5 (-3) (by decide)).2.2.1,
    (paginator_nonpositive_limit Unit lastPageFetch reviewPageFetch 5 (-3) (by decide)).2.2.2⟩

/-- C2 (counterexample): a run with target 10 whose first page holds 2
items but reports no next page fetches exactly that page and returns the
empty collection — the page was seen before termination, yet its 2 items
are not in the result, so the length is not
`min(targetCount, sum of item counts of pages seen)`. -/
theorem getTopAnime_discards_final_page :
    GetTopAnime lastPageFetch 10 = Except.ok [] ∧
      topSeenPages lastPageFetch 10 = [lastPage] ∧
      (0 : Nat) ≠ min ((10 : Int).toNat)
        (((topSeenPages lastPageFetch 10).map (fun p => p.data.length)).sum) := by
  refine ⟨rfl, rfl, by decide⟩

/-- C2 (amended): for every successful paginated fetch, the returned
collection length is `min(targetCount, number of items accumulated)`,
where a page that terminates the loop by being empty or by reporting no
next page is fetched but contributes no items. -/
theorem paginated_length_eq_min_accumulated :
    (∀ (ε : Type) (fetch : Nat → Except ε AnimeResponse) (limit : Int) (l : List AnimeData),
        GetTopAnime fetch limit = Except.ok l →
        l.length = min limit.toNat (topAccCount fetch limit)) ∧
      ∀ (ε : Type) (fetch : Int → Nat → Except ε ReviewResponse) (malID limit : Int)
        (l : List ReviewData),
        GetAnimeReviews fetch malID limit = Except.ok l →
        l.length = min limit.toNat (reviewsAccCount fetch malID limit) := by
  constructor
  · intro ε fetch limit l hrun
    have h := paginateAux_ok_length fetch limit limit.toNat 1 [] l
      (by simp) (Or.inr rfl) hrun
    simpa [topAccCount] using h
  · intro ε fetch malID limit l hrun
    have h := paginateAux_ok_length (fetch malID) limit limit.toNat 1 [] l
      (by simp) (Or.inr rfl) hrun
    simpa [reviewsAccCount] using h

/-- Witness for the amended C2 on both paginated fetchers. -/
theorem paginated_length_eq_min_accumulated_witness :
    (GetTopAnime fullPageFetch 2 = Except.ok [entryA, entryB] ∧
        (2 : Nat) = min ((2 : Int).toNat) (topAccCount fullPageFetch 2)) ∧
      GetAnimeReviews reviewPageFetch 7 1 = Except.ok [reviewFix] ∧
        (1 : Nat) = min ((1 : Int).toNat) (reviewsAccCount reviewPageFetch 7 1) := by
  have h1 : GetTopAnime fullPageFetch 2 = Except.ok [entryA, entryB] := rfl
  have h2 : GetAnimeReviews reviewPageFetch 7 1 = Except.ok [reviewFix] := rfl
  refine ⟨⟨h1, ?_⟩, h2, ?_⟩
  · simpa using paginated_length_eq_min_accumulated.1 Unit fullPageFetch 2 [entryA, entryB] h1
  · simpa using paginated_length_eq_min_accumulated.2 Unit reviewPageFetch 7 1 [reviewFix] h2

/-- C3: a successful paginated run never returns more than `targetCount`
items, and (for a positive target) it stops for exactly one of the three
reasons — empty page, no-next-page flag, or target reached — checked in
that order on the terminating page; when it stops because the target was
reached the collection is truncated to exactly `targetCount`, and in the
other two cases it holds strictly fewer than `targetCount` items. -/
theorem paginator_termination :
    (∀ (ε : Type) (fetch : Nat → Except ε AnimeResponse) (limit : Int) (l : List AnimeData),
        GetTopAnime fetch limit = Except.ok l →
        l.length ≤ limit.toNat ∧
          (0 < limit →
            (topStopReason fetch limit = StopReason.emptyPage ∨
              topStopReason fetch limit = StopReason.noNextPage ∨
              topStopReason fetch limit = StopReason.reachedTarget) ∧
              (topStopReason fetch limit = StopReason.reachedTarget →
                l.length = limit.toNat) ∧
              ((topStopReason fetch limit = StopReason.emptyPage ∨
                topStopReason fetch limit = StopReason.noNextPage) →
                (l.length : Int) < limit))) ∧
      ∀ (ε : Type) (fetch : Int → Nat → Except ε ReviewResponse) (malID limit : Int)
        (l : List ReviewData),
        GetAnimeReviews fetch malID limit = Except.ok l →
        l.length ≤ limit.toNat ∧
          (0 < limit →
            (reviewsStopReason fetch malID limit = StopReason.emptyPage ∨
              reviewsStopReason fetch malID limit = StopReason.noNextPage ∨
              reviewsStopReason fetch malID limit = StopReason.reachedTarget) ∧
              (reviewsStopReason fetch malID limit = StopReason.reachedTarget →
                l.length = limit.toNat) ∧
              ((reviewsStopReason fetch malID limit = StopReason.emptyPage ∨
                reviewsStopReason fetch malID limit = StopReason.noNextPage) →
                (l.length : Int) < limit)) := by
  constructor
  · intro ε fetch limit l hrun
    have hlen := paginateAux_ok_length fetch limit limit.toNat 1 [] l
      (by simp) (Or.inr rfl) hrun
    refine ⟨by omega, fun hpos => ?_⟩
    have h := paginateAux_stop_facts fetch limit limit.toNat 1 [] l
      (by simp) (by simpa using hpos) hrun
    exact h
  · intro ε fetch malID limit l hrun
    have hlen := paginateAux_ok_length (fetch malID) limit limit.toNat 1 [] l
      (by simp) (Or.inr rfl) hrun
    refine ⟨by omega, fun hpos => ?_⟩
    have h := paginateAux_stop_facts (fetch malID) limit limit.toNat 1 [] l
      (by simp) (by simpa using hpos) hrun
    exact h

/-- Witness for C3: a target of 2 against 3-item pages stops by reaching
the target and truncates to exactly 2 items. -/
theorem paginator_termination_witness :
    [entryA, entryB].length ≤ (2 : Int).toNat ∧
      topStopReason fullPageFetch 2 = StopReason.reachedTarget ∧
      [entryA, entryB].length = (2 : Int).toNat := by
  have h1 : GetTopAnime fullPageFetch 2 = Except.ok [entryA, entryB] := rfl
  have h := paginator_termination.1 Unit fullPageFetch 2 [entryA, entryB] h1
  have hsr : topStopReason fullPageFetch (2 : Int) = StopReason.reachedTarget := by decide
  exact ⟨h.1, hsr, (h.2 (by decide)).2.1 hsr⟩

/-- C6 (counterexample): the statistics projection can depend on the score
map iteration order.  The two orders of the same two-key map (keys `"1"`
and `"01"`, both parsed to score 1 by `strconv.Atoi`) yield different
tables, so two runs over the same input collections need not be
byte-identical. -/
theorem export_statistics_order_dependent :
    aliasScoresA.Perm aliasScoresB ∧
      (aliasScoresA.map Prod.fst).Nodup ∧
      exportAnimeStatisticsRows [aliasEntryA] ≠ exportAnimeStatisticsRows [aliasEntryB] := by
  refine ⟨List.Perm.swap _ _ _, by decide, ?_⟩
  have hCA : fillScoreCols aliasScoresA =
      (["9", "0", "0", "0", "0", "0", "0", "0", "0", "0"],
       ["1.00", "0", "0", "0", "0", "0", "0", "0", "0", "0"]) := by
    simp only [aliasScoresA, fillScoreCols, List.foldl_cons, List.foldl_nil, fillScoreStep,
      show parsedIdx? "1" = some 0 from by decide,
      show parsedIdx? "01" = some 0 from by decide,
      formatFixed2_one, formatFixed2_of_1234]
    decide
  have hCB : fillScoreCols aliasScoresB =
      (["5", "0", "0", "0", "0", "0", "0", "0", "0", "0"],
       ["12.34", "0", "0", "0", "0", "0", "0", "0", "0", "0"]) := by
    simp only [aliasScoresB, fillScoreCols, List.foldl_cons, List.foldl_nil, fillScoreStep,
      show parsedIdx? "1" = some 0 from by decide,
      show parsedIdx? "01" = some 0 from by decide,
      formatFixed2_one, formatFixed2_of_1234]
    decide
  have hEA : exportAnimeStatisticsRows [aliasEntryA] =
      [statisticsHeader, statisticsRowCore 1 ⟨10, 20, 3, 4, 5, 42, aliasScoresA⟩] := rfl
  have hEB : exportAnimeStatisticsRows [aliasEntryB] =
      [statisticsHeader, statisticsRowCore 1 ⟨10, 20, 3, 4, 5, 42, aliasScoresB⟩] := rfl
  have hRA : statisticsRowCore 1 ⟨10, 20, 3, 4, 5, 42, aliasScoresA⟩ =
      [itoa 1, itoa 10, itoa 20, itoa 3, itoa 4, itoa 5, itoa 42] ++
        interleavePairs ["9", "0", "0", "0", "0", "0", "0", "0", "0", "0"]
          ["1.00", "0", "0", "0", "0", "0", "0", "0", "0", "0"] := by
    rw [statisticsRowCore]
    show _ ++ interleavePairs (fillScoreCols aliasScoresA).1 (fillScoreCols aliasScoresA).2 = _
    rw [hCA]
  have hRB : statisticsRowCore 1 ⟨10, 20, 3, 4, 5, 42, aliasScoresB⟩ =
      [itoa 1, itoa 10, itoa 20, itoa 3, itoa 4, itoa 5, itoa 42] ++
        interleavePairs ["5", "0", "0", "0", "0", "0", "0", "0", "0", "0"]
          ["12.34", "0", "0", "0", "0", "0", "0", "0", "0", "0"] := by
    rw [statisticsRowCore]
    show _ ++ interleavePairs (fillScoreCols aliasScoresB).1 (fillScoreCols aliasScoresB).2 = _
    rw [hCB]
  rw [hEA, hEB, hRA, hRB]
  decide

/-- C6 (amended): the statistics projection is independent of the score
map iteration order provided no two distinct keys of a snapshot parse to
the same in-range score index (true in particular for the canonical keys
`"1"`–`"10"`): permuting each snapshot's iteration order of an input
collection leaves the emitted table unchanged.  (Projections that read no
map — reviews, basic, links — are plain folds over slices and are
order-independent outright.) -/
theorem export_statistics_deterministic_no_alias :
    (∀ (s₁ s₂ : List (String × ScoreData)), s₁.Perm s₂ → scoreKeysNoAlias s₁ →
        fillScoreCols s₁ = fillScoreCols s₂) ∧
      ∀ (l₁ l₂ : List AnimeData), List.Forall₂ SameEntry l₁ l₂ →
        exportAnimeStatisticsRows l₁ = exportAnimeStatisticsRows l₂ := by
  refine ⟨fun s₁ s₂ hp hal => fillScoreCols_perm s₁ s₂ hp hal, fun l₁ l₂ h => ?_⟩
  simp only [exportAnimeStatisticsRows]
  congr 1
  induction h with
  | nil => rfl
  | cons hab htl ih =>
    rw [List.filterMap_cons, List.filterMap_cons, statisticsRow_congr _ _ hab, ih]

/-- Witness for the amended C6: the round-trip snapshot in its two
iteration orders produces the same table. -/
theorem export_statistics_deterministic_no_alias_witness :
    exportAnimeStatisticsRows [rtEntryA] = exportAnimeStatisticsRows [rtEntryB] := by
  refine export_statistics_deterministic_no_alias.2 [rtEntryA] [rtEntryB]
    (List.Forall₂.cons ⟨rfl, ?_⟩ List.Forall₂.nil)
  show SameSnapshot (some ⟨1, 2, 3, 4, 5, 6, roundTripScores⟩)
    (some ⟨1, 2, 3, 4, 5, 6, roundTripScoresRev⟩)
  exact ⟨rfl, rfl, rfl, rfl, rfl, rfl, List.Perm.swap _ _ _, by decide, by decide⟩

/-- C9: once the top-level ranked-list fetch succeeds, per-item enrichment
failures never abort the run — the collector always reaches its exports —
and an item whose detail (resp. review) fetch fails is simply absent from
the statistics (resp. reviews) output, assuming the API returns entities
for the requested ID. -/
theorem collector_enrichment_failures_nonfatal :
    ∀ (ε : Type) (getTopAnime : Int → Except ε (List AnimeData))
      (getAnimeDetails : Int → Except ε AnimeData)
      (getAnimeReviews : Int → Int → Except ε (List ReviewData))
      (topAnime : List AnimeData),
      getTopAnime MaxItemsToFetch = Except.ok topAnime →
      (∃ out, CollectAnimeData getTopAnime getAnimeDetails getAnimeReviews = Except.ok out) ∧
        ((∀ id d, getAnimeDetails id = Except.ok d → d.malID = id) →
          ∀ a ∈ topAnime, (∃ e, getAnimeDetails a.malID = Except.error e) →
            ∃ enriched reviews,
              CollectAnimeData getTopAnime getAnimeDetails getAnimeReviews =
                  Except.ok (exportAnimeStatisticsRows enriched,
                    exportAnimeReviewsRows reviews) ∧
                a.malID ∉ enriched.map (fun d => d.malID)) ∧
        ((∀ id lim rs, getAnimeReviews id lim = Except.ok rs →
            ∀ r ∈ rs, r.animeMalID = id) →
          ∀ a ∈ topAnime, (∃ e, getAnimeReviews a.malID 50 = Except.error e) →
            ∃ enriched reviews,
              CollectAnimeData getTopAnime getAnimeDetails getAnimeReviews =
                  Except.ok (exportAnimeStatisticsRows enriched,
                    exportAnimeReviewsRows reviews) ∧
                a.malID ∉ reviews.map (fun r => r.animeMalID)) := by
  intro ε getTopAnime getAnimeDetails getAnimeReviews topAnime htop
  have hC : CollectAnimeData getTopAnime getAnimeDetails getAnimeReviews =
      Except.ok
        (exportAnimeStatisticsRows
          ((topAnime.take (min MaxItemsToFetch 100).toNat).filterMap
            (fun anime => (getAnimeDetails anime.malID).toOption)),
         exportAnimeReviewsRows
          ((topAnime.take (min 20 (topAnime.length : Int)).toNat).flatMap
            (fun anime =>
              match getAnimeReviews anime.malID 50 with
              | Except.ok reviews => reviews
              | Except.error _ => []))) := by
    unfold CollectAnimeData
    rw [htop]
  refine ⟨⟨_, hC⟩, fun hresp a ha hfail => ?_, fun hresp a ha hfail => ?_⟩
  · refine ⟨_, _, hC, fun hmem => ?_⟩
    obtain ⟨d, hd, hdid⟩ := List.mem_map.mp hmem
    obtain ⟨b, hb, hbd⟩ := List.mem_filterMap.mp hd
    obtain ⟨e, he⟩ := hfail
    cases hob : getAnimeDetails b.malID with
    | error e2 => rw [hob] at hbd; exact Option.noConfusion hbd
    | ok d2 =>
      rw [hob] at hbd
      injection hbd with hbd
      have hbid : d.malID = b.malID := hbd ▸ hresp _ _ hob
      rw [hdid] at hbid
      rw [hbid] at he
      rw [he] at hob
      exact Except.noConfusion hob
  · refine ⟨_, _, hC, fun hmem => ?_⟩
    obtain ⟨r, hr, hrid⟩ := List.mem_map.mp hmem
    obtain ⟨b, hb, hbr⟩ := List.mem_flatMap.mp hr
    obtain ⟨e, he⟩ := hfail
    cases hob : getAnimeReviews b.malID 50 with
    | error e2 => rw [hob] at hbr; simp at hbr
    | ok rs =>
      rw [hob] at hbr
      simp only at hbr
      have hbid : r.animeMalID = b.malID := hresp _ _ _ hob r hbr
      rw [hrid] at hbid
      rw [hbid] at he
      rw [he] at hob
      exact Except.noConfusion hob

/-- Witness for C9: with a 2-item top list whose ID-1 detail and review
fetches fail and whose ID-2 fetches succeed, the run completes and ID 1 is
absent from both outputs. -/
theorem collector_enrichment_failures_nonfatal_witness :
    (∃ enriched reviews,
        CollectAnimeData getTopFix getDetailsFix getReviewsFix =
            Except.ok (exportAnimeStatisticsRows enriched, exportAnimeReviewsRows reviews) ∧
          (1 : Int) ∉ enriched.map (fun d => d.malID)) ∧
      ∃ enriched reviews,
        CollectAnimeData getTopFix getDetailsFix getReviewsFix =
            Except.ok (exportAnimeStatisticsRows enriched, exportAnimeReviewsRows reviews) ∧
          (1 : Int) ∉ reviews.map (fun r => r.animeMalID) := by
  have hdet : ∀ id d, getDetailsFix id = Except.ok d → d.malID = id := by
    intro id d h
    unfold getDetailsFix at h
    split at h
    · exact absurd h (by simp)
    · injection h with h
      subst h
      rfl
  have hrev : ∀ id lim rs, getReviewsFix id lim = Except.ok rs →
      ∀ r ∈ rs, r.animeMalID = id := by
    intro id lim rs h
    unfold getReviewsFix at h
    split at h
    · exact absurd h (by simp)
    · injection h with h
      subst h
      intro r hr
      simp at hr
  have h := collector_enrichment_failures_nonfatal Unit getTopFix getDetailsFix getReviewsFix
    topFix rfl
  have hmem : (⟨1, "A", none⟩ : AnimeData) ∈ topFix := by decide
  exact ⟨h.2.1 hdet ⟨1, "A", none⟩ hmem ⟨(), rfl⟩, h.2.2 hrev ⟨1, "A", none⟩ hmem ⟨(), rfl⟩⟩

end AnimeScraper
